import Mathlib

/-!
Verification development for the cloudwatch-logs-export repository.

The repository has two Python source files:
  * `src/lambda/index.py` — the Export Orchestrator (a scheduled Lambda handler
    that scans a DynamoDB configuration table and issues one
    `create_export_task` request per configuration record);
  * `src/add_log_group.py` — the Registration Tool (an interactive script that
    lists CloudWatch log groups, parses a selection expression, and writes one
    configuration record per selected group).

This file gives a shallow embedding of both, definition by definition, and
proves/refutes the specification claims about them.

Modelling conventions:
  * External collaborators (the DynamoDB table, the CloudWatch export API, the
    `re` regex engine, `datetime` formatting) are passed in as explicit
    function parameters; the embedded code is exactly the repository's control
    flow around them.
  * A DynamoDB item is a key/value association list of strings
    (`config['k']` raising `KeyError` becomes an `Except.error`;
    `config.get('k')` becomes an `Option`-returning lookup).
  * `datetime.now()` is one reading of a clock stream `clock : Nat → Int`
    (epoch milliseconds); each textual call site consumes the next reading,
    exactly as the Python calls `datetime.now()` afresh each time.
  * Python exceptions are `Except String`; epoch-millisecond arithmetic on
    `int(... .timestamp() * 1000)` is idealised as exact `Int` arithmetic.
  * `print` output is modelled as a list of structured message values, one
    constructor per `print` call site, carrying the interpolated data.
-/

/-- A DynamoDB item: a key/value record with string attribute values,
as returned by `table.scan()['Items']` in `src/lambda/index.py`. -/
def DBRecord := List (String × String)

instance : DecidableEq DBRecord := by unfold DBRecord; infer_instance

instance : Membership (String × String) DBRecord := by unfold DBRecord; infer_instance

instance : Append DBRecord := by unfold DBRecord; infer_instance

instance : Inhabited DBRecord := ⟨([] : List (String × String))⟩

/-- Dictionary lookup: `config.get(key)` — `some v` for the first entry with
that key, `none` when the key is absent.  `config[key]` is this followed by a
`KeyError` on `none`. -/
def lookupKey : DBRecord → String → Option String
  | [], _ => none
  | (k, v) :: rest, key => if k = key then some v else lookupKey rest key

/-- A record is well-formed for the orchestrator's per-record body when both
required attributes `logGroupName` and `s3BucketName` are present
(`config['logGroupName']` / `config['s3BucketName']` do not raise). -/
def wfRecord (c : DBRecord) : Prop :=
  (lookupKey c "logGroupName").isSome ∧ (lookupKey c "s3BucketName").isSome

instance (c : DBRecord) : Decidable (wfRecord c) := by unfold wfRecord; infer_instance

/-- The keyword arguments passed to `cloudwatch_logs.create_export_task` in
`src/lambda/index.py` (`export_params`).  `destinationPfx` embeds the Python
`destinationPrefix` field. -/
structure ExportParams where
  destination : String
  fromTime : Int
  toTime : Int
  logGroupName : String
  destinationPfx : String
  deriving DecidableEq, Repr

/-- One element of the `results` list built by the handler: either
`{logGroupName, taskId, status: EXPORT_STARTED}` or
`{logGroupName, error, status: EXPORT_FAILED}`. -/
inductive Outcome where
  | started (logGroupName taskId : String)
  | failed (logGroupName error : String)
  deriving DecidableEq, Repr

/-- The `logGroupName` field of an outcome. -/
def Outcome.name : Outcome → String
  | .started n _ => n
  | .failed n _ => n

/-- Whether an outcome carries `status: EXPORT_STARTED`. -/
def Outcome.isStarted : Outcome → Bool
  | .started _ _ => true
  | .failed _ _ => false

/-- The `body` of the handler's return value (the argument of `json.dumps`):
either the plain no-configurations string, the completed message with the
per-record `results` list, or the top-level error message with the error
string. -/
inductive HandlerBody where
  | noConfigs
  | completed (results : List Outcome)
  | topError (error : String)
  deriving DecidableEq, Repr

/-- The handler's return value `{'statusCode': ..., 'body': ...}`. -/
structure HandlerResult where
  statusCode : Nat
  body : HandlerBody
  deriving DecidableEq, Repr

/-- Lines 48–66 of `src/lambda/index.py` for one record, after the three
attribute reads: the window computation, the default-prefix synthesis, and
the `export_params` dictionary.  `clock j` is the `to_time` reading of
`datetime.now()`, `clock (j + 1)` the `from_time` reading, and — only when
`s3_prefix` is falsy (absent or the empty string) — `clock (j + 2)` is the
`today` reading rendered by `formatDate` (the `strftime('%Y-%m-%d')` call).
Returns the params and the number of clock readings consumed after this
record. -/
def recordParams (formatDate : Int → String) (W : Int) (clock : Nat → Int)
    (j : Nat) (logGroupName s3BucketName : String) (s3Pfx : Option String) :
    ExportParams × Nat :=
  let toTime : Int := clock j
  let fromTime : Int := clock (j + 1) - W * 60000
  let (destPfx, j2) :=
    match s3Pfx with
    | none => ("exports/" ++ logGroupName ++ "/" ++ formatDate (clock (j + 2)), j + 3)
    | some p =>
      if p = "" then
        ("exports/" ++ logGroupName ++ "/" ++ formatDate (clock (j + 2)), j + 3)
      else (p, j + 2)
  ({ destination := s3BucketName, fromTime := fromTime, toTime := toTime,
     logGroupName := logGroupName, destinationPfx := destPfx }, j2)

/-- The body of `for config in log_configs:` in `src/lambda/index.py`
(lines 43–83), for the record at 0-based position `i`, with `j` clock readings
already consumed by earlier iterations.

  * `api i params` embeds the `cloudwatch_logs.create_export_task(**params)`
    call made at call position `i` (the external service may answer
    differently on different calls); `.ok taskId` / `.error e`.
  * `formatDate t` embeds the `datetime.now().strftime('%Y-%m-%d')` rendering
    of the clock reading `t`.
  * `W` is the module constant `EXPORT_TIME_RANGE_MINUTES`.

Returns `.error` exactly when `config['logGroupName']` or
`config['s3BucketName']` raises `KeyError` (these reads happen before the
inner `try`); otherwise returns the export params actually sent, the outcome
appended to `results`, and the number of clock readings consumed so far. -/
def processRecord (api : Nat → ExportParams → Except String String)
    (formatDate : Int → String) (W : Int) (clock : Nat → Int)
    (i j : Nat) (config : DBRecord) :
    Except String (ExportParams × Outcome × Nat) :=
  match lookupKey config "logGroupName" with
  | none => .error "KeyError: logGroupName"
  | some logGroupName =>
    match lookupKey config "s3BucketName" with
    | none => .error "KeyError: s3BucketName"
    | some s3BucketName =>
      let (params, j2) :=
        recordParams formatDate W clock j logGroupName s3BucketName
          (lookupKey config "s3Prefix")
      match api i params with
      | .ok taskId => .ok (params, .started logGroupName taskId, j2)
      | .error e => .ok (params, .failed logGroupName e, j2)

/-- The whole `for config in log_configs:` loop.  First component: the trace
of `create_export_task` calls actually issued (in order); second: `.ok` with
the `results` list, or `.error` when some iteration raised `KeyError` (in
which case the calls already issued stay in the trace and no later record is
processed — the exception propagates to the handler's top-level `except`). -/
def runLoop (api : Nat → ExportParams → Except String String)
    (formatDate : Int → String) (W : Int) (clock : Nat → Int) :
    Nat → Nat → List DBRecord → List ExportParams × Except String (List Outcome)
  | _, _, [] => ([], .ok [])
  | i, j, config :: rest =>
    match processRecord api formatDate W clock i j config with
    | .error e => ([], .error e)
    | .ok (params, outcome, j2) =>
      let (calls, res) := runLoop api formatDate W clock (i + 1) j2 rest
      (params :: calls, res.map (outcome :: ·))

/-- `handler(event, context)` from `src/lambda/index.py`.  `scanResult` is the
outcome of `table.scan()` followed by `response.get('Items', [])` (`.error`
when the scan itself raises, e.g. the store is unreachable).  The top-level
`try/except` catches every exception from the scan or the loop and returns
`statusCode 500`; otherwise the empty-configuration early return or the
completed result, both `statusCode 200`. -/
def handler (api : Nat → ExportParams → Except String String)
    (formatDate : Int → String) (W : Int) (clock : Nat → Int)
    (scanResult : Except String (List DBRecord)) : HandlerResult :=
  match scanResult with
  | .error e => { statusCode := 500, body := .topError e }
  | .ok logConfigs =>
    if logConfigs = [] then { statusCode := 200, body := .noConfigs }
    else
      match (runLoop api formatDate W clock 0 0 logConfigs).2 with
      | .ok results => { statusCode := 200, body := .completed results }
      | .error e => { statusCode := 500, body := .topError e }

/-- The configuration table as DynamoDB serves it: `scan` returns the items
one page at a time (server-side pagination at the 1 MB boundary), each
response carrying the next page's continuation key while more pages remain. -/
structure ConfigStore where
  pages : List (List DBRecord)

/-- What one `table.scan()` call hands the handler: the `Items` of the first
page only.  The source never reads `LastEvaluatedKey` and never calls `scan`
again, so later pages are invisible to it. -/
def ConfigStore.scanItems (s : ConfigStore) : List DBRecord :=
  s.pages.headD []

/-- Every record actually persisted in the store: the concatenation of all
pages. -/
def ConfigStore.allRecords (s : ConfigStore) : List DBRecord :=
  s.pages.flatten

/-- The handler run against a live store: the scan succeeds and returns the
first page. -/
def handlerOnStore (api : Nat → ExportParams → Except String String)
    (formatDate : Int → String) (W : Int) (clock : Nat → Int)
    (s : ConfigStore) : HandlerResult :=
  handler api formatDate W clock (.ok s.scanItems)

/-- A CloudWatch log group descriptor as the selection code uses it:
`get_log_group_selection` reads only `lg['logGroupName']` (the stored-bytes
and creation-time fields of the catalog entry are used for display only). -/
structure LogGroup where
  logGroupName : String
  deriving DecidableEq, Repr

/-- The `re` module as the script uses it: `compile` either rejects the
pattern with a syntax error (`re.error`) or yields the `regex.search`
predicate of the compiled pattern — `search` scans the whole argument for a
match anywhere (substring search, not full-match). -/
structure RegexEngine where
  compile : String → Except String (String → Bool)

/-- The `print` calls of `get_log_group_selection`, one constructor per call
site, carrying the interpolated data:
  * `noMatch p` — "No log groups matched the pattern 'p'"
  * `invalidRegex e` — "Invalid regex pattern: e"
  * `matchedHeader n` — "Matched n log groups:"
  * `groupName g` — "- g"
  * `invalidSelection idx total` — "Invalid selection: idx. Please enter
    numbers between 1 and total"
  * `selectedHeader` — "Selected log groups:"
  * `invalidInput` — "Invalid input. Please enter valid numbers, 'all', or a
    regex pattern" -/
inductive SelMsg where
  | noMatch (pat : String)
  | invalidRegex (err : String)
  | matchedHeader (count : Nat)
  | groupName (name : String)
  | invalidSelection (idx : Int) (total : Nat)
  | selectedHeader
  | invalidInput
  deriving DecidableEq, Repr

/-- `s.lower()`: ASCII-fold every character (Python lowercases beyond ASCII;
the inputs compared against are `"all"` and `"y"`, for which `Char.toLower`
agrees). -/
def pyLower (s : String) : String :=
  String.mk (s.data.map Char.toLower)

/-- `s.strip()`: drop whitespace from both ends. -/
def pyStrip (s : String) : String :=
  String.mk (((s.data.dropWhile Char.isWhitespace).reverse.dropWhile
    Char.isWhitespace).reverse)

/-- Helper for `s.split(',')`: split a character list at every comma, keeping
empty pieces, accumulating the current piece in reverse. -/
def splitCommaAux : List Char → List Char → List (List Char)
  | [], acc => [acc.reverse]
  | c :: cs, acc =>
    if c = ',' then acc.reverse :: splitCommaAux cs [] else splitCommaAux cs (c :: acc)

/-- `s.split(',')`: Python's split on a single-character separator — no
merging of adjacent separators, empty pieces preserved. -/
def splitComma (s : String) : List String :=
  (splitCommaAux s.data []).map String.mk

/-- `selection.startswith('/') and selection.endswith('/')` (true for the
one-character string "/", as in Python). -/
def isRegexForm (s : String) : Bool :=
  s.data.head? = some '/' && s.data.getLast? = some '/'

/-- `selection[1:-1]`: the interior of the `/…/` form. -/
def regexInterior (s : String) : String :=
  String.mk ((s.data.drop 1).dropLast)

/-- Value of a non-empty all-digit character list. -/
def natOfDigits (cs : List Char) : Nat :=
  cs.foldl (fun n c => n * 10 + (c.toNat - 48)) 0

/-- Parse an unsigned decimal numeral: every character a digit, at least
one. -/
def natOfDigits? (cs : List Char) : Option Nat :=
  if cs ≠ [] ∧ cs.all Char.isDigit then some (natOfDigits cs) else none

/-- `int(s)` for a stripped string: optional sign followed by decimal digits,
`none` instead of `ValueError` (Python's underscore digit separators and
non-ASCII digits are not modelled; the surrounding whitespace tolerance is
`pyStrip`). -/
def pyInt? (s : String) : Option Int :=
  match (pyStrip s).data with
  | '-' :: cs => (natOfDigits? cs).map (fun n => -(n : Int))
  | '+' :: cs => (natOfDigits? cs).map (fun n => (n : Int))
  | cs => (natOfDigits? cs).map (fun n => (n : Int))

/-- The index-parsing step of the numeric branch:
`[int(idx.strip()) for idx in selection.split(',')]` when the input contains
a comma, else `[int(selection.strip())]`; `none` is the `ValueError` path. -/
def parseIndices (s : String) : Option (List Int) :=
  if s.data.contains ',' then (splitComma s).mapM pyInt?
  else (pyInt? s).map (fun n => [n])

/-- The `for idx in indices:` validation loop: append `log_groups[idx-1]` for
each index with `1 <= idx <= total_count`; at the first out-of-range index,
stop and report it (`break`; the partial list is discarded by the caller's
control flow). -/
def selectByIndices (logGroups : List LogGroup) : List Int → Except Int (List LogGroup)
  | [] => .ok []
  | idx :: rest =>
    if 1 ≤ idx ∧ idx ≤ (logGroups.length : Int) then
      match selectByIndices logGroups rest with
      | .ok sel => .ok (logGroups.getD (idx - 1).toNat ⟨""⟩ :: sel)
      | .error bad => .error bad
    else .error idx

/-- The outcome of one iteration of the `while True:` loop in
`get_log_group_selection` for one selection answer:
  * `ret msgs selected` — the function returns `selected` (after the printed
    `msgs`) with no confirmation prompt (the `'all'` branch);
  * `confirmThen msgs cand` — the candidates `cand` are displayed (`msgs`)
    and the `Confirm selection (y/n)` prompt is reached;
  * `retry msgs` — an error/empty-match message is printed and the loop
    re-prompts. -/
inductive SelStep where
  | ret (msgs : List SelMsg) (selected : List LogGroup)
  | confirmThen (msgs : List SelMsg) (cand : List LogGroup)
  | retry (msgs : List SelMsg)
  deriving DecidableEq, Repr

/-- The branch analysis of one selection answer in `get_log_group_selection`
(`src/add_log_group.py` lines 50–104), in source order:
`selection.lower() == 'all'` returns the whole catalog with no confirmation;
the `/…/` form compiles the interior and keeps the groups whose name
`regex.search` matches (an invalid pattern or an empty match set re-prompt
with their messages); otherwise the comma-separated index form (`ValueError`
re-prompts with the invalid-input message, the first out-of-range index
rejects the whole batch naming the index and the range `1..N`, and a valid
non-empty batch is displayed and awaits confirmation). -/
def selParse (engine : RegexEngine) (logGroups : List LogGroup)
    (selection : String) : SelStep :=
  if pyLower selection = "all" then .ret [] logGroups
  else if isRegexForm selection then
    match engine.compile (regexInterior selection) with
    | .error e => .retry [SelMsg.invalidRegex e]
    | .ok matcher =>
      let selectedGroups := logGroups.filter (fun lg => matcher lg.logGroupName)
      if selectedGroups = [] then .retry [SelMsg.noMatch (regexInterior selection)]
      else
        .confirmThen
          (SelMsg.matchedHeader selectedGroups.length ::
            selectedGroups.map (fun lg => SelMsg.groupName lg.logGroupName))
          selectedGroups
  else
    match parseIndices selection with
    | none => .retry [SelMsg.invalidInput]
    | some indices =>
      match selectByIndices logGroups indices with
      | .error idx => .retry [SelMsg.invalidSelection idx logGroups.length]
      | .ok selectedGroups =>
        if selectedGroups = [] then .retry []
        else
          .confirmThen
            (SelMsg.selectedHeader ::
              selectedGroups.map (fun lg => SelMsg.groupName lg.logGroupName))
            selectedGroups

/-- `get_log_group_selection(log_groups)` from `src/add_log_group.py`, run on
a finite script of `input()` answers.  Each `while True:` iteration consumes
the next answer as the selection string and analyses it with `selParse`; a
`confirmThen` outcome additionally consumes the next answer at the
`Confirm selection (y/n)` prompt — a case-insensitive `y` returns the
displayed candidates, anything else discards them and re-prompts from
scratch.  Returns the `print` messages emitted (in order) and `some selected`
when the function returns, or `none` when the script is exhausted while the
Python loop would still be blocked on `input()` (the real loop only ends by
returning a confirmed selection). -/
def get_log_group_selection (engine : RegexEngine) (logGroups : List LogGroup) :
    List String → List SelMsg × Option (List LogGroup)
  | [] => ([], none)
  | selection :: rest =>
    match selParse engine logGroups selection with
    | .ret msgs selected => (msgs, some selected)
    | .retry msgs =>
      let (ms, r) := get_log_group_selection engine logGroups rest
      (msgs ++ ms, r)
    | .confirmThen msgs cand =>
      match rest with
      | [] => (msgs, none)
      | confirm :: rest2 =>
        if pyLower confirm = "y" then (msgs, some cand)
        else
          let (ms, r) := get_log_group_selection engine logGroups rest2
          (msgs ++ ms, r)

/-- The item built for `table.put_item` in `main` of `src/add_log_group.py`:
`logGroupName`, `s3BucketName`, `createdAt` always; `s3Prefix` only when the
prompt answer was non-empty (`if s3_prefix:`), embedded here as the
`s3PfxField` option. -/
structure DBItem where
  logGroupName : String
  s3BucketName : String
  s3PfxField : Option String
  createdAt : String
  deriving DecidableEq, Repr

/-- The `print` calls of the write loop and final report in `main`:
  * `added g` — "Added: g"
  * `addError g e` — "Error adding log group g: e"
  * `successCount n` — "Successfully added n log group(s) to the
    configuration"
  * `nothingAdded` — "No log groups were added to the configuration" -/
inductive RegMsg where
  | added (name : String)
  | addError (name err : String)
  | successCount (n : Nat)
  | nothingAdded
  deriving DecidableEq, Repr

/-- The item `main` builds for one selected log group, given the bucket and
prefix prompt answers and the `datetime.now().isoformat()` timestamp. -/
def mkItem (s3BucketName s3PfxAnswer nowIso : String) (lg : LogGroup) : DBItem :=
  { logGroupName := lg.logGroupName, s3BucketName := s3BucketName,
    s3PfxField := if s3PfxAnswer = "" then none else some s3PfxAnswer,
    createdAt := nowIso }

/-- The `for log_group in selected_log_groups:` write loop of `main`:
one `put_item` attempt per selected group (`putItem` is the external store's
response to that item); success prints `Added` and increments `added_count`,
failure is caught, prints `addError` with the group name and error, and the
loop continues.  Returns the final count and the messages in order. -/
def registerSelected (putItem : DBItem → Except String Unit)
    (s3BucketName s3PfxAnswer nowIso : String) :
    List LogGroup → Nat × List RegMsg
  | [] => (0, [])
  | lg :: rest =>
    let (n, msgs) := registerSelected putItem s3BucketName s3PfxAnswer nowIso rest
    match putItem (mkItem s3BucketName s3PfxAnswer nowIso lg) with
    | .ok _ => (n + 1, RegMsg.added lg.logGroupName :: msgs)
    | .error e => (n, RegMsg.addError lg.logGroupName e :: msgs)

/-- The final report of `main`: `successCount` when `added_count > 0`, the
distinct `nothingAdded` message otherwise. -/
def registrationReport (n : Nat) : RegMsg :=
  if n > 0 then .successCount n else .nothingAdded

/-- The write loop followed by its final report: all messages `main` prints
after the prompts, and the count of records successfully written. -/
def runRegistration (putItem : DBItem → Except String Unit)
    (s3BucketName s3PfxAnswer nowIso : String) (selected : List LogGroup) :
    Nat × List RegMsg :=
  let (n, msgs) := registerSelected putItem s3BucketName s3PfxAnswer nowIso selected
  (n, msgs ++ [registrationReport n])

deriving instance DecidableEq for Except

/-- Remove every entry with the given key from a record (statement apparatus:
used to say a record is treated "exactly like the record with the key
absent"). -/
def eraseKey : DBRecord → String → DBRecord
  | [], _ => []
  | (k, v) :: rest, key =>
    if k = key then eraseKey rest key else (k, v) :: eraseKey rest key

/-- An export API that accepts every request with task id `"task-1"`. -/
def okApi : Nat → ExportParams → Except String String := fun _ _ => .ok "task-1"

/-- An export API that rejects exactly the second call (call position 1) —
the spec's example of one mid-batch failure. -/
def failSecondApi : Nat → ExportParams → Except String String :=
  fun i _ => if i = 1 then .error "LimitExceededException" else .ok "task-1"

/-- A date renderer pinned to 2024-03-01 (what
`datetime.now().strftime('%Y-%m-%d')` yields on that day). -/
def dateFmt : Int → String := fun _ => "2024-03-01"

/-- A clock that advances by one millisecond per `datetime.now()` call. -/
def idClock : Nat → Int := fun n => (n : Int)

/-- A clock frozen at epoch millisecond 0. -/
def zeroClock : Nat → Int := fun _ => 0

/-- A configuration record with no `s3Prefix` attribute. -/
def cfgA : DBRecord := [("logGroupName", "app-logs"), ("s3BucketName", "bkt")]

/-- A configuration record with a non-empty `s3Prefix`. -/
def cfgB : DBRecord :=
  [("logGroupName", "sys-logs"), ("s3BucketName", "bkt"), ("s3Prefix", "pfx")]

/-- A configuration record whose `s3Prefix` attribute is present but empty. -/
def cfgEmptyPfx : DBRecord :=
  [("logGroupName", "app-logs"), ("s3BucketName", "bkt"), ("s3Prefix", "")]

/-- A malformed configuration record: no `s3BucketName` attribute. -/
def cfgBad : DBRecord := [("logGroupName", "orphan")]

/-- A configuration store whose contents span two scan pages. -/
def storeTwoPages : ConfigStore := ⟨[[cfgB], [cfgA]]⟩

/-- A regex engine stub for witnesses: every pattern except `"("` compiles,
and a compiled pattern matches by literal substring containment (which is
`re.search`'s behaviour on metacharacter-free patterns); `"("` is rejected
the way `re.compile` rejects an unterminated group. -/
def literalEngine : RegexEngine :=
  ⟨fun p =>
    if p = "(" then .error "missing ), unterminated subpattern"
    else .ok (fun name => decide (p.data <:+: name.data))⟩

/-- A regex engine stub whose `compile` is never consulted (for witnesses
that exercise only the non-regex branches). -/
def noEngine : RegexEngine := ⟨fun _ => .error "unused"⟩

/-- A configuration-store write that rejects exactly the item for
`sys-logs`. -/
def flakyPut : DBItem → Except String Unit :=
  fun item => if item.logGroupName = "sys-logs" then .error "boom" else .ok ()

/-- A configuration-store write that rejects every item. -/
def failPut : DBItem → Except String Unit := fun _ => .error "denied"

theorem recordParams_window (f : Int → String) (W : Int) (clock : Nat → Int)
    (j : Nat) (n b : String) (o : Option String) :
    (recordParams f W clock j n b o).1.toTime = clock j ∧
    (recordParams f W clock j n b o).1.fromTime = clock (j + 1) - W * 60000 := by
  unfold recordParams
  cases o with
  | none => exact ⟨rfl, rfl⟩
  | some p => by_cases hp : p = "" <;> simp [hp]

theorem recordParams_pfx_none (f : Int → String) (W : Int) (clock : Nat → Int)
    (j : Nat) (n b : String) :
    (recordParams f W clock j n b none).1.destinationPfx =
      "exports/" ++ n ++ "/" ++ f (clock (j + 2)) := rfl

theorem recordParams_empty (f : Int → String) (W : Int) (clock : Nat → Int)
    (j : Nat) (n b : String) :
    recordParams f W clock j n b (some "") = recordParams f W clock j n b none := rfl

theorem recordParams_pfx_some (f : Int → String) (W : Int) (clock : Nat → Int)
    (j : Nat) (n b p : String) (hp : p ≠ "") :
    (recordParams f W clock j n b (some p)).1.destinationPfx = p := by
  simp [recordParams, hp]

/-- With both required attributes present, `processRecord` is the inner
`try/except` around the export call on the computed params. -/
theorem processRecord_eq_ok (api : Nat → ExportParams → Except String String)
    (f : Int → String) (W : Int) (clock : Nat → Int) (i j : Nat)
    (c : DBRecord) (name bucket : String)
    (hn : lookupKey c "logGroupName" = some name)
    (hb : lookupKey c "s3BucketName" = some bucket) :
    processRecord api f W clock i j c =
      match api i (recordParams f W clock j name bucket (lookupKey c "s3Prefix")).1 with
      | .ok taskId =>
        .ok ((recordParams f W clock j name bucket (lookupKey c "s3Prefix")).1,
             .started name taskId,
             (recordParams f W clock j name bucket (lookupKey c "s3Prefix")).2)
      | .error e =>
        .ok ((recordParams f W clock j name bucket (lookupKey c "s3Prefix")).1,
             .failed name e,
             (recordParams f W clock j name bucket (lookupKey c "s3Prefix")).2) := by
  unfold processRecord
  rw [hn, hb]

theorem processRecord_window (api : Nat → ExportParams → Except String String)
    (f : Int → String) (W : Int) (clock : Nat → Int) (i j : Nat)
    (c : DBRecord) (params : ExportParams) (out : Outcome) (j2 : Nat)
    (h : processRecord api f W clock i j c = .ok (params, out, j2)) :
    params.toTime = clock j ∧ params.fromTime = clock (j + 1) - W * 60000 := by
  cases hn : lookupKey c "logGroupName" with
  | none => rw [processRecord, hn] at h; cases h
  | some name =>
    cases hb : lookupKey c "s3BucketName" with
    | none => rw [processRecord, hn, hb] at h; cases h
    | some bucket =>
      rw [processRecord_eq_ok api f W clock i j c name bucket hn hb] at h
      cases happ : api i (recordParams f W clock j name bucket (lookupKey c "s3Prefix")).1 with
      | ok t =>
        rw [happ] at h
        have hp : params = (recordParams f W clock j name bucket (lookupKey c "s3Prefix")).1 := by
          cases h; rfl
        rw [hp]
        exact recordParams_window f W clock j name bucket (lookupKey c "s3Prefix")
      | error e =>
        rw [happ] at h
        have hp : params = (recordParams f W clock j name bucket (lookupKey c "s3Prefix")).1 := by
          cases h; rfl
        rw [hp]
        exact recordParams_window f W clock j name bucket (lookupKey c "s3Prefix")

theorem lookupKey_eraseKey_ne (c : DBRecord) (key other : String) (h : other ≠ key) :
    lookupKey (eraseKey c key) other = lookupKey c other := by
  induction c with
  | nil => rfl
  | cons kv rest ih =>
    rcases kv with ⟨k, v⟩
    by_cases hk : k = key
    · rw [eraseKey, if_pos hk, ih, lookupKey,
        if_neg (fun hh : k = other => h (hk ▸ hh ▸ rfl))]
    · rw [eraseKey, if_neg hk, lookupKey, lookupKey]
      by_cases hko : k = other
      · rw [if_pos hko, if_pos hko]
      · rw [if_neg hko, if_neg hko, ih]

theorem lookupKey_eraseKey_self (c : DBRecord) (key : String) :
    lookupKey (eraseKey c key) key = none := by
  induction c with
  | nil => rfl
  | cons kv rest ih =>
    rcases kv with ⟨k, v⟩
    by_cases hk : k = key
    · rw [eraseKey, if_pos hk]; exact ih
    · rw [eraseKey, if_neg hk, lookupKey, if_neg hk]; exact ih

theorem runLoop_nil (api : Nat → ExportParams → Except String String)
    (f : Int → String) (W : Int) (clock : Nat → Int) (i j : Nat) :
    runLoop api f W clock i j [] = ([], .ok []) := rfl

theorem runLoop_cons_error (api : Nat → ExportParams → Except String String)
    (f : Int → String) (W : Int) (clock : Nat → Int) (i j : Nat)
    (c : DBRecord) (rest : List DBRecord) (e : String)
    (h : processRecord api f W clock i j c = .error e) :
    runLoop api f W clock i j (c :: rest) = ([], .error e) := by
  rw [runLoop, h]

theorem runLoop_cons_ok (api : Nat → ExportParams → Except String String)
    (f : Int → String) (W : Int) (clock : Nat → Int) (i j : Nat)
    (c : DBRecord) (rest : List DBRecord)
    (params : ExportParams) (out : Outcome) (j2 : Nat)
    (h : processRecord api f W clock i j c = .ok (params, out, j2)) :
    runLoop api f W clock i j (c :: rest) =
      (params :: (runLoop api f W clock (i + 1) j2 rest).1,
       (runLoop api f W clock (i + 1) j2 rest).2.map (out :: ·)) := by
  rw [runLoop, h]

/-- When `s3_prefix` is falsy (absent or empty), the record is exported with
the synthesized default destination prefix. -/
theorem processRecord_falsy_pfx (api : Nat → ExportParams → Except String String)
    (f : Int → String) (W : Int) (clock : Nat → Int) (i j : Nat)
    (c : DBRecord) (name bucket : String)
    (hn : lookupKey c "logGroupName" = some name)
    (hb : lookupKey c "s3BucketName" = some bucket)
    (hp : lookupKey c "s3Prefix" = none ∨ lookupKey c "s3Prefix" = some "") :
    ∃ r, processRecord api f W clock i j c = .ok r ∧
      r.1.destinationPfx = "exports/" ++ name ++ "/" ++ f (clock (j + 2)) := by
  rw [processRecord_eq_ok api f W clock i j c name bucket hn hb]
  have hrp : recordParams f W clock j name bucket (lookupKey c "s3Prefix") =
      recordParams f W clock j name bucket none := by
    rcases hp with hp | hp <;> rw [hp]
    exact recordParams_empty f W clock j name bucket
  rw [hrp]
  cases happ : api i (recordParams f W clock j name bucket none).1 with
  | ok t => exact ⟨_, rfl, recordParams_pfx_none f W clock j name bucket⟩
  | error e => exact ⟨_, rfl, recordParams_pfx_none f W clock j name bucket⟩

/-- A truthy (non-empty) `s3Prefix` is passed through to the export request
unchanged. -/
theorem processRecord_some_pfx (api : Nat → ExportParams → Except String String)
    (f : Int → String) (W : Int) (clock : Nat → Int) (i j : Nat)
    (c : DBRecord) (name bucket p : String)
    (hn : lookupKey c "logGroupName" = some name)
    (hb : lookupKey c "s3BucketName" = some bucket)
    (hp : lookupKey c "s3Prefix" = some p) (hne : p ≠ "") :
    ∃ r, processRecord api f W clock i j c = .ok r ∧
      r.1.destinationPfx = p := by
  rw [processRecord_eq_ok api f W clock i j c name bucket hn hb, hp]
  cases happ : api i (recordParams f W clock j name bucket (some p)).1 with
  | ok t => exact ⟨_, rfl, recordParams_pfx_some f W clock j name bucket p hne⟩
  | error e => exact ⟨_, rfl, recordParams_pfx_some f W clock j name bucket p hne⟩

/-- Every export request issued by the loop takes its window from the clock
readings of its own iteration: `to` from one reading, `from` from the next
minus `W` minutes. -/
theorem runLoop_trace_window (api : Nat → ExportParams → Except String String)
    (f : Int → String) (W : Int) (clock : Nat → Int) (T : Int)
    (hc : ∀ n, clock n = T) :
    ∀ (configs : List DBRecord) (i j : Nat),
      ∀ p ∈ (runLoop api f W clock i j configs).1,
        p.toTime = T ∧ p.fromTime = T - W * 60000 := by
  intro configs
  induction configs with
  | nil => intro i j p hp; rw [runLoop_nil] at hp; cases hp
  | cons c rest ih =>
    intro i j p hp
    cases hpr : processRecord api f W clock i j c with
    | error e => rw [runLoop_cons_error api f W clock i j c rest e hpr] at hp; cases hp
    | ok r =>
      rcases r with ⟨params, out, j2⟩
      rw [runLoop_cons_ok api f W clock i j c rest params out j2 hpr] at hp
      simp only [List.mem_cons] at hp
      rcases hp with rfl | hp
      · have hw := processRecord_window api f W clock i j c p out j2 hpr
        rw [hc j, hc (j + 1)] at hw
        exact hw
      · exact ih (i + 1) j2 p hp

/-- C1: the Export Orchestrator is claimed to iterate over the full set of
persisted configuration records, looping until the store's pagination is
exhausted.  The code calls `table.scan()` exactly once and never follows
`LastEvaluatedKey`: on a store whose contents span two scan pages it iterates
over the first page only, so the record on the second page is silently never
exported.  This theorem evaluates the handler on such a store: two records
are persisted, but the invocation's result carries exactly one outcome — the
first page's record. -/
theorem c1_first_page_only :
    storeTwoPages.allRecords = [cfgB, cfgA] ∧
    storeTwoPages.scanItems = [cfgB] ∧
    handlerOnStore okApi dateFmt 1440 idClock storeTwoPages =
      { statusCode := 200,
        body := .completed [.started "sys-logs" "task-1"] } ∧
    (runLoop okApi dateFmt 1440 idClock 0 0 storeTwoPages.scanItems).1.length = 1 := by
  decide

/-- C2 (counterexample): the claim states that a single window
`[now − W·60000, now]` — with `to − from = W·60000` — is shared by every
record of the invocation.  The code recomputes `datetime.now()` twice per
record inside the loop, so on a clock that advances between calls the two
records of this concrete invocation get different windows, and no record's
width is exactly `W·60000`. -/
theorem c2_per_record_clock :
    ¬ ∀ p ∈ (runLoop okApi dateFmt 1440 idClock 0 0 [cfgB, cfgB]).1,
        p.toTime - p.fromTime = 1440 * 60000 ∧
        (∀ q ∈ (runLoop okApi dateFmt 1440 idClock 0 0 [cfgB, cfgB]).1,
          q.toTime = p.toTime) := by
  decide

/-- C2 (amended): each record's window is computed at processing time from
two fresh clock readings — `to` from one `datetime.now()` call and `from`
from a second, minus `W` minutes.  When every reading during the invocation
returns the same instant `T`, every issued export request carries exactly the
window `[T − W·60000, T]` (so for `W = 1440`, `[T − 86400000, T]`), the same
for all records. -/
theorem c2_window (api : Nat → ExportParams → Except String String)
    (f : Int → String) (W : Int) (clock : Nat → Int) (T : Int)
    (hc : ∀ n, clock n = T) (configs : List DBRecord) :
    ∀ p ∈ (runLoop api f W clock 0 0 configs).1,
      p.toTime = T ∧ p.fromTime = T - W * 60000 ∧
      p.toTime - p.fromTime = W * 60000 := by
  intro p hp
  obtain ⟨h1, h2⟩ := runLoop_trace_window api f W clock T hc configs 0 0 p hp
  refine ⟨h1, h2, ?_⟩
  rw [h1, h2]
  ring

/-- C2 (witness): on a clock frozen at `T = 100000` with `W = 1440`, the
concrete single-record invocation issues a request whose window is exactly
`[100000 − 86400000, 100000]`. -/
theorem c2_window_witness :
    ∃ p, p ∈ (runLoop okApi dateFmt 1440 (fun _ => 100000) 0 0 [cfgB]).1 ∧
      p.toTime = 100000 ∧ p.fromTime = 100000 - 1440 * 60000 ∧
      p.toTime - p.fromTime = 1440 * 60000 := by
  refine ⟨{ destination := "bkt", fromTime := -86300000, toTime := 100000,
            logGroupName := "sys-logs", destinationPfx := "pfx" }, ?_, ?_⟩
  · decide
  · exact c2_window okApi dateFmt 1440 (fun _ => 100000) 100000 (fun _ => rfl)
      [cfgB] _ (by decide)

/-- C6 (counterexample): the claim states that a record with an `s3Prefix`
present keeps it unchanged.  The code tests `if not s3_prefix:` —
truthiness, not presence — so the record whose `s3Prefix` is present but
equal to `""` has it replaced by the synthesized default
`exports/app-logs/2024-03-01` in the issued request. -/
theorem c6_empty_pfx_replaced :
    lookupKey cfgEmptyPfx "s3Prefix" = some "" ∧
    processRecord okApi dateFmt 1440 zeroClock 0 0 cfgEmptyPfx =
      .ok ({ destination := "bkt", fromTime := -86400000, toTime := 0,
             logGroupName := "app-logs",
             destinationPfx := "exports/app-logs/2024-03-01" },
           .started "app-logs" "task-1", 3) ∧
    ("exports/app-logs/2024-03-01" : String) ≠ "" := by
  decide

/-- C6 (amended): for a record whose `s3Prefix` is absent (and likewise for
an empty one, see the truthiness test), the destination prefix of the issued
request is exactly `exports/{logGroupName}/{today}` where `today` is the
date rendering of the current clock reading; a record with an `s3Prefix`
present and non-empty keeps it unchanged. -/
theorem c6_default_pfx (api : Nat → ExportParams → Except String String)
    (f : Int → String) (W : Int) (clock : Nat → Int) (i j : Nat)
    (c : DBRecord) (name bucket : String)
    (hn : lookupKey c "logGroupName" = some name)
    (hb : lookupKey c "s3BucketName" = some bucket) :
    (lookupKey c "s3Prefix" = none →
      ∃ r, processRecord api f W clock i j c = .ok r ∧
        r.1.destinationPfx = "exports/" ++ name ++ "/" ++ f (clock (j + 2)))
    ∧ (∀ p, lookupKey c "s3Prefix" = some p → p ≠ "" →
      ∃ r, processRecord api f W clock i j c = .ok r ∧
        r.1.destinationPfx = p) := by
  constructor
  · intro hp
    exact processRecord_falsy_pfx api f W clock i j c name bucket hn hb (Or.inl hp)
  · intro p hp hne
    exact processRecord_some_pfx api f W clock i j c name bucket p hn hb hp hne

/-- C6 (witness): on 2024-03-01, the record `cfgA` (logGroupName
`app-logs`, no `s3Prefix`) is exported with destination prefix exactly
`exports/app-logs/2024-03-01`, and the record `cfgB` (prefix `pfx`) keeps
`pfx`. -/
theorem c6_default_pfx_witness :
    (∃ r, processRecord okApi dateFmt 1440 zeroClock 0 0 cfgA = .ok r ∧
       r.1.destinationPfx = "exports/app-logs/2024-03-01") ∧
    (∃ r, processRecord okApi dateFmt 1440 zeroClock 0 0 cfgB = .ok r ∧
       r.1.destinationPfx = "pfx") := by
  constructor
  · obtain ⟨r, hr, hp⟩ :=
      (c6_default_pfx okApi dateFmt 1440 zeroClock 0 0 cfgA "app-logs" "bkt"
        (by decide) (by decide)).1 (by decide)
    exact ⟨r, hr, hp.trans (by decide)⟩
  · exact (c6_default_pfx okApi dateFmt 1440 zeroClock 0 0 cfgB "sys-logs" "bkt"
      (by decide) (by decide)).2 "pfx" (by decide) (by decide)

/-- C9: a record whose `s3Prefix` attribute is present but equal to the
empty string is handled exactly like a record with the attribute absent —
`if not s3_prefix:` tests emptiness, not key absence — and the default
prefix `exports/{logGroupName}/{today}` is synthesized for it. -/
theorem c9_empty_pfx_like_absent (api : Nat → ExportParams → Except String String)
    (f : Int → String) (W : Int) (clock : Nat → Int) (i j : Nat)
    (c : DBRecord) (hp : lookupKey c "s3Prefix" = some "") :
    processRecord api f W clock i j c =
      processRecord api f W clock i j (eraseKey c "s3Prefix") ∧
    (∀ name bucket, lookupKey c "logGroupName" = some name →
       lookupKey c "s3BucketName" = some bucket →
       ∃ r, processRecord api f W clock i j c = .ok r ∧
         r.1.destinationPfx = "exports/" ++ name ++ "/" ++ f (clock (j + 2))) := by
  constructor
  · have h1 : lookupKey (eraseKey c "s3Prefix") "logGroupName" =
        lookupKey c "logGroupName" :=
      lookupKey_eraseKey_ne c "s3Prefix" "logGroupName" (by decide)
    have h2 : lookupKey (eraseKey c "s3Prefix") "s3BucketName" =
        lookupKey c "s3BucketName" :=
      lookupKey_eraseKey_ne c "s3Prefix" "s3BucketName" (by decide)
    have h3 : lookupKey (eraseKey c "s3Prefix") "s3Prefix" = none :=
      lookupKey_eraseKey_self c "s3Prefix"
    simp only [processRecord, h1, h2, h3, hp,
      recordParams_empty]
  · intro name bucket hn hb
    exact processRecord_falsy_pfx api f W clock i j c name bucket hn hb (Or.inr hp)

/-- C9 (witness): the concrete empty-prefix record `cfgEmptyPfx` is processed
identically to its copy with the `s3Prefix` attribute removed, and gets the
synthesized default prefix. -/
theorem c9_empty_pfx_witness :
    processRecord okApi dateFmt 1440 zeroClock 0 0 cfgEmptyPfx =
      processRecord okApi dateFmt 1440 zeroClock 0 0 (eraseKey cfgEmptyPfx "s3Prefix") ∧
    (∃ r, processRecord okApi dateFmt 1440 zeroClock 0 0 cfgEmptyPfx = .ok r ∧
       r.1.destinationPfx = "exports/" ++ "app-logs" ++ "/" ++ dateFmt (zeroClock 2)) := by
  have h := c9_empty_pfx_like_absent okApi dateFmt 1440 zeroClock 0 0 cfgEmptyPfx (by decide)
  exact ⟨h.1, h.2 "app-logs" "bkt" (by decide) (by decide)⟩

/-- The write loop, in closed form: one `put_item` attempt per selected
source (a failure never stops the loop), one message per source in input
order, and the count of successful writes. -/
theorem registerSelected_eq (putItem : DBItem → Except String Unit)
    (b pfx niso : String) (sel : List LogGroup) :
    registerSelected putItem b pfx niso sel =
      ((sel.filter (fun lg => (putItem (mkItem b pfx niso lg)).isOk)).length,
       sel.map (fun lg =>
         match putItem (mkItem b pfx niso lg) with
         | .ok _ => RegMsg.added lg.logGroupName
         | .error e => RegMsg.addError lg.logGroupName e)) := by
  induction sel with
  | nil => rfl
  | cons lg rest ih =>
    rw [registerSelected, ih]
    cases hpt : putItem (mkItem b pfx niso lg) with
    | ok u => simp [List.filter_cons, hpt, Except.isOk, Except.toBool]
    | error e => simp [List.filter_cons, hpt, Except.isOk, Except.toBool]

/-- C7: the Registration Writer attempts one write per selected source; a
failed write is reported with the source name and error and does not abort
the remaining writes; the reported count is the number of successful writes,
and the final report is the distinct nothing-was-added message when that
count is zero, the success-count message otherwise. -/
theorem c7_write_loop (putItem : DBItem → Except String Unit)
    (b pfx niso : String) (selected : List LogGroup) (n : Nat)
    (msgs : List RegMsg)
    (h : runRegistration putItem b pfx niso selected = (n, msgs)) :
    n = (selected.filter (fun lg => (putItem (mkItem b pfx niso lg)).isOk)).length ∧
    msgs = selected.map (fun lg =>
        match putItem (mkItem b pfx niso lg) with
        | .ok _ => RegMsg.added lg.logGroupName
        | .error e => RegMsg.addError lg.logGroupName e)
      ++ [registrationReport n] ∧
    (n = 0 → registrationReport n = RegMsg.nothingAdded) ∧
    (0 < n → registrationReport n = RegMsg.successCount n) := by
  unfold runRegistration at h
  rw [registerSelected_eq] at h
  obtain ⟨h1, h2⟩ := Prod.mk.inj h
  subst h1
  refine ⟨rfl, h2.symm, ?_, ?_⟩
  · intro h0; rw [h0]; rfl
  · intro h0; unfold registrationReport; rw [if_pos h0]

/-- C7 (witness): with a store rejecting exactly the `sys-logs` item, the
two-source run writes one record, reports both attempts in order, and ends
with the success-count message; with a store rejecting everything, the
single-source run reports zero writes and ends with the distinct
nothing-was-added message. -/
theorem c7_write_loop_witness :
    runRegistration flakyPut "bkt" "" "t0" [⟨"app-logs"⟩, ⟨"sys-logs"⟩] =
      (1, [RegMsg.added "app-logs", RegMsg.addError "sys-logs" "boom",
           RegMsg.successCount 1]) ∧
    registrationReport 1 = RegMsg.successCount 1 ∧
    runRegistration failPut "bkt" "" "t0" [⟨"app-logs"⟩] =
      (0, [RegMsg.addError "app-logs" "denied", RegMsg.nothingAdded]) ∧
    registrationReport 0 = RegMsg.nothingAdded := by
  have h1 := c7_write_loop flakyPut "bkt" "" "t0" [⟨"app-logs"⟩, ⟨"sys-logs"⟩] 1
    [RegMsg.added "app-logs", RegMsg.addError "sys-logs" "boom",
     RegMsg.successCount 1] (by decide)
  have h2 := c7_write_loop failPut "bkt" "" "t0" [⟨"app-logs"⟩] 0
    [RegMsg.addError "app-logs" "denied", RegMsg.nothingAdded] (by decide)
  exact ⟨by decide, h1.2.2.2 (by decide), by decide, h2.2.2.1 rfl⟩

theorem handler_ok_eq (api : Nat → ExportParams → Except String String)
    (f : Int → String) (W : Int) (clock : Nat → Int) (cfgs : List DBRecord) :
    handler api f W clock (.ok cfgs) =
      if cfgs = [] then { statusCode := 200, body := .noConfigs }
      else
        match (runLoop api f W clock 0 0 cfgs).2 with
        | .ok results => { statusCode := 200, body := .completed results }
        | .error e => { statusCode := 500, body := .topError e } := rfl

theorem processRecord_ok_of_wf (api : Nat → ExportParams → Except String String)
    (f : Int → String) (W : Int) (clock : Nat → Int) (i j : Nat)
    (c : DBRecord) (h : wfRecord c) :
    ∃ r, processRecord api f W clock i j c = .ok r := by
  obtain ⟨name, hn⟩ := Option.isSome_iff_exists.mp h.1
  obtain ⟨bucket, hb⟩ := Option.isSome_iff_exists.mp h.2
  rw [processRecord_eq_ok api f W clock i j c name bucket hn hb]
  cases api i (recordParams f W clock j name bucket (lookupKey c "s3Prefix")).1 with
  | ok t => exact ⟨_, rfl⟩
  | error e => exact ⟨_, rfl⟩

theorem processRecord_error_of_not_wf (api : Nat → ExportParams → Except String String)
    (f : Int → String) (W : Int) (clock : Nat → Int) (i j : Nat)
    (c : DBRecord) (h : ¬ wfRecord c) :
    ∃ e, processRecord api f W clock i j c = .error e := by
  rw [wfRecord, not_and_or] at h
  cases hn : lookupKey c "logGroupName" with
  | none => exact ⟨_, by rw [processRecord, hn]⟩
  | some name =>
    cases hb : lookupKey c "s3BucketName" with
    | none => exact ⟨_, by rw [processRecord, hn, hb]⟩
    | some bucket =>
      exfalso
      rcases h with h | h
      · rw [hn] at h; exact h rfl
      · rw [hb] at h; exact h rfl

theorem runLoop_ok_of_wf (api : Nat → ExportParams → Except String String)
    (f : Int → String) (W : Int) (clock : Nat → Int) :
    ∀ (configs : List DBRecord) (i j : Nat), (∀ c ∈ configs, wfRecord c) →
      ∃ outs, (runLoop api f W clock i j configs).2 = .ok outs := by
  intro configs
  induction configs with
  | nil => intro i j _; exact ⟨[], rfl⟩
  | cons c rest ih =>
    intro i j hwf
    obtain ⟨⟨params, out, j2⟩, hpr⟩ :=
      processRecord_ok_of_wf api f W clock i j c (hwf c (List.mem_cons_self c rest))
    obtain ⟨outs, ho⟩ := ih (i + 1) j2 (fun d hd => hwf d (List.mem_cons_of_mem _ hd))
    refine ⟨out :: outs, ?_⟩
    rw [runLoop_cons_ok api f W clock i j c rest params out j2 hpr, ho]
    rfl

theorem runLoop_error_of_bad (api : Nat → ExportParams → Except String String)
    (f : Int → String) (W : Int) (clock : Nat → Int) :
    ∀ (configs : List DBRecord) (i j : Nat) (c : DBRecord), c ∈ configs →
      ¬ wfRecord c → ∃ e, (runLoop api f W clock i j configs).2 = .error e := by
  intro configs
  induction configs with
  | nil => intro i j c hc; cases hc
  | cons d rest ih =>
    intro i j c hc hbad
    by_cases hd : wfRecord d
    · obtain ⟨⟨params, out, j2⟩, hpr⟩ := processRecord_ok_of_wf api f W clock i j d hd
      have hcr : c ∈ rest := by
        rcases List.mem_cons.mp hc with rfl | hcr
        · exact absurd hd hbad
        · exact hcr
      obtain ⟨e, he⟩ := ih (i + 1) j2 c hcr hbad
      refine ⟨e, ?_⟩
      rw [runLoop_cons_ok api f W clock i j d rest params out j2 hpr, he]
      rfl
    · obtain ⟨e, he⟩ := processRecord_error_of_not_wf api f W clock i j d hd
      exact ⟨e, by rw [runLoop_cons_error api f W clock i j d rest e he]⟩

/-- C8 (counterexample): the claim allows statusCode 500 only for an error
thrown outside the per-record loop, and promises 200 for every other
invocation.  Here the configuration read succeeds (the scan result is `.ok`),
yet the invocation returns 500: the record lacking `s3BucketName` raises
`KeyError` inside the for loop — before the per-record `try` — and reaches
the top-level handler. -/
theorem c8_inner_loop_500 :
    handler okApi dateFmt 1440 zeroClock (.ok [cfgBad]) =
      { statusCode := 500, body := .topError "KeyError: s3BucketName" } := by
  decide

/-- C8 (amended): the invocation always returns a structured result with
statusCode 200 or 500; it is 500 exactly when an uncaught exception reaches
the top-level catch-all — the configuration read itself fails, or some
record lacks `logGroupName`/`s3BucketName` and raises inside the for loop
but before the per-record try.  Every other invocation — including ones
whose only failures are per-record export failures, and the empty
configuration set — returns 200. -/
theorem c8_status_codes (api : Nat → ExportParams → Except String String)
    (f : Int → String) (W : Int) (clock : Nat → Int)
    (scanResult : Except String (List DBRecord)) :
    ((handler api f W clock scanResult).statusCode = 200 ∨
     (handler api f W clock scanResult).statusCode = 500) ∧
    ((handler api f W clock scanResult).statusCode = 500 ↔
      ((∃ e, scanResult = .error e) ∨
       (∃ cfgs, scanResult = .ok cfgs ∧ ∃ c ∈ cfgs, ¬ wfRecord c))) := by
  cases scanResult with
  | error e =>
    refine ⟨Or.inr rfl, ?_, fun _ => rfl⟩
    intro _
    exact Or.inl ⟨e, rfl⟩
  | ok cfgs =>
    by_cases hne : cfgs = []
    · subst hne
      refine ⟨Or.inl rfl, ?_, ?_⟩
      · intro h; cases h
      · rintro (⟨e, he⟩ | ⟨cfgs, hc, c, hm, _⟩)
        · cases he
        · cases hc; cases hm
    · by_cases hwf : ∀ c ∈ cfgs, wfRecord c
      · obtain ⟨outs, ho⟩ := runLoop_ok_of_wf api f W clock cfgs 0 0 hwf
        have hres : handler api f W clock (.ok cfgs) =
            { statusCode := 200, body := .completed outs } := by
          rw [handler_ok_eq, if_neg hne, ho]
        rw [hres]
        refine ⟨Or.inl rfl, ?_, ?_⟩
        · intro h; cases h
        · rintro (⟨e, he⟩ | ⟨cfgs2, hc, c, hm, hbad⟩)
          · cases he
          · cases hc; exact absurd (hwf c hm) hbad
      · push_neg at hwf
        obtain ⟨c, hm, hbad⟩ := hwf
        obtain ⟨e, he⟩ := runLoop_error_of_bad api f W clock cfgs 0 0 c hm hbad
        have hres : handler api f W clock (.ok cfgs) =
            { statusCode := 500, body := .topError e } := by
          rw [handler_ok_eq, if_neg hne, he]
        rw [hres]
        exact ⟨Or.inr rfl, fun _ => Or.inr ⟨cfgs, rfl, c, hm, hbad⟩, fun _ => rfl⟩

theorem runLoop_stops_at_bad (api : Nat → ExportParams → Except String String)
    (f : Int → String) (W : Int) (clock : Nat → Int)
    (bad : DBRecord) (post : List DBRecord) (hbad : ¬ wfRecord bad) :
    ∀ (pre : List DBRecord) (i j : Nat), (∀ c ∈ pre, wfRecord c) →
      (runLoop api f W clock i j (pre ++ bad :: post)).1 =
        (runLoop api f W clock i j pre).1 ∧
      ∃ e, (runLoop api f W clock i j (pre ++ bad :: post)).2 = .error e := by
  intro pre
  induction pre with
  | nil =>
    intro i j _
    obtain ⟨e, he⟩ := processRecord_error_of_not_wf api f W clock i j bad hbad
    rw [List.nil_append, runLoop_cons_error api f W clock i j bad post e he,
      runLoop_nil]
    exact ⟨rfl, e, rfl⟩
  | cons c pre2 ih =>
    intro i j hwf
    obtain ⟨⟨params, out, j2⟩, hpr⟩ :=
      processRecord_ok_of_wf api f W clock i j c (hwf c (List.mem_cons_self c pre2))
    obtain ⟨htr, e, he⟩ := ih (i + 1) j2 (fun d hd => hwf d (List.mem_cons_of_mem _ hd))
    rw [List.cons_append,
      runLoop_cons_ok api f W clock i j c (pre2 ++ bad :: post) params out j2 hpr,
      runLoop_cons_ok api f W clock i j c pre2 params out j2 hpr]
    refine ⟨by rw [htr], e, ?_⟩
    rw [he]
    rfl

/-- C10: per-record failure isolation covers only the export API call. A
record lacking `logGroupName` or `s3BucketName` raises `KeyError` before the
per-record try: the invocation takes the top-level catch, returns
statusCode 500 with an error body and no results list, and no record after
the malformed one is processed (the export-call trace is exactly the trace of
the records preceding it). -/
theorem c10_malformed_record (api : Nat → ExportParams → Except String String)
    (f : Int → String) (W : Int) (clock : Nat → Int)
    (pre post : List DBRecord) (bad : DBRecord)
    (hpre : ∀ c ∈ pre, wfRecord c) (hbad : ¬ wfRecord bad) :
    (handler api f W clock (.ok (pre ++ bad :: post))).statusCode = 500 ∧
    (∃ e, (handler api f W clock (.ok (pre ++ bad :: post))).body = .topError e) ∧
    (runLoop api f W clock 0 0 (pre ++ bad :: post)).1 =
      (runLoop api f W clock 0 0 pre).1 := by
  obtain ⟨htr, e, he⟩ := runLoop_stops_at_bad api f W clock bad post hbad pre 0 0 hpre
  have hne : pre ++ bad :: post ≠ [] := by
    intro h
    exact absurd (List.append_eq_nil.mp h).2 (by simp)
  have hres : handler api f W clock (.ok (pre ++ bad :: post)) =
      { statusCode := 500, body := .topError e } := by
    rw [handler_ok_eq, if_neg hne, he]
  rw [hres]
  exact ⟨rfl, ⟨e, rfl⟩, htr⟩

/-- C10 (witness): with the malformed record `cfgBad` (no `s3BucketName`)
between two well-formed records, the invocation returns 500 with an error
body, and the export calls actually issued are exactly those for the single
record before it. -/
theorem c10_malformed_record_witness :
    (handler okApi dateFmt 1440 zeroClock (.ok [cfgA, cfgBad, cfgB])).statusCode = 500 ∧
    (∃ e, (handler okApi dateFmt 1440 zeroClock (.ok [cfgA, cfgBad, cfgB])).body =
      .topError e) ∧
    (runLoop okApi dateFmt 1440 zeroClock 0 0 [cfgA, cfgBad, cfgB]).1 =
      (runLoop okApi dateFmt 1440 zeroClock 0 0 [cfgA]).1 := by
  exact c10_malformed_record okApi dateFmt 1440 zeroClock [cfgA] [cfgB] cfgBad
    (by decide) (by decide)

/-- On a batch of well-formed records the loop returns one outcome per
record, in input order: the `m`-th outcome carries the `m`-th record's
`logGroupName`, and is `EXPORT_STARTED` with the task id when the `m`-th
export call succeeds, `EXPORT_FAILED` with the error when it fails. -/
theorem runLoop_spec (api : Nat → ExportParams → Except String String)
    (f : Int → String) (W : Int) (clock : Nat → Int) :
    ∀ (configs : List DBRecord) (i j : Nat), (∀ c ∈ configs, wfRecord c) →
      ∃ outs, (runLoop api f W clock i j configs).2 = .ok outs ∧
        outs.length = configs.length ∧
        ∀ m (hm : m < configs.length), ∃ params out,
          outs.get? m = some out ∧
          lookupKey (configs.get ⟨m, hm⟩) "logGroupName" = some out.name ∧
          ((∃ t, api (i + m) params = .ok t ∧ out = .started out.name t) ∨
           (∃ e, api (i + m) params = .error e ∧ out = .failed out.name e)) := by
  intro configs
  induction configs with
  | nil =>
    intro i j _
    exact ⟨[], rfl, rfl, fun m hm => absurd hm (by simp)⟩
  | cons c rest ih =>
    intro i j hwf
    have hc : wfRecord c := hwf c (List.mem_cons_self c rest)
    obtain ⟨name, hn⟩ := Option.isSome_iff_exists.mp hc.1
    obtain ⟨bucket, hb⟩ := Option.isSome_iff_exists.mp hc.2
    obtain ⟨outs2, ho, hlen, hspec⟩ :=
      ih (i + 1) (recordParams f W clock j name bucket (lookupKey c "s3Prefix")).2
        (fun d hd => hwf d (List.mem_cons_of_mem _ hd))
    cases happ : api i (recordParams f W clock j name bucket (lookupKey c "s3Prefix")).1 with
    | ok t =>
      have hpr : processRecord api f W clock i j c =
          .ok ((recordParams f W clock j name bucket (lookupKey c "s3Prefix")).1,
               .started name t,
               (recordParams f W clock j name bucket (lookupKey c "s3Prefix")).2) := by
        rw [processRecord_eq_ok api f W clock i j c name bucket hn hb, happ]
      refine ⟨.started name t :: outs2, ?_, by simp [hlen], ?_⟩
      · rw [runLoop_cons_ok api f W clock i j c rest _ _ _ hpr, ho]
        rfl
      · intro m hm
        cases m with
        | zero =>
          refine ⟨(recordParams f W clock j name bucket (lookupKey c "s3Prefix")).1,
            .started name t, rfl, ?_, Or.inl ⟨t, ?_, rfl⟩⟩
          · simpa [Outcome.name] using hn
          · simpa using happ
        | succ m2 =>
          have hm2 : m2 < rest.length := by simpa using hm
          obtain ⟨params, out, h1, h2, h3⟩ := hspec m2 hm2
          refine ⟨params, out, by simpa using h1, by simpa using h2, ?_⟩
          have harith : i + 1 + m2 = i + (m2 + 1) := by omega
          rwa [harith] at h3
    | error e =>
      have hpr : processRecord api f W clock i j c =
          .ok ((recordParams f W clock j name bucket (lookupKey c "s3Prefix")).1,
               .failed name e,
               (recordParams f W clock j name bucket (lookupKey c "s3Prefix")).2) := by
        rw [processRecord_eq_ok api f W clock i j c name bucket hn hb, happ]
      refine ⟨.failed name e :: outs2, ?_, by simp [hlen], ?_⟩
      · rw [runLoop_cons_ok api f W clock i j c rest _ _ _ hpr, ho]
        rfl
      · intro m hm
        cases m with
        | zero =>
          refine ⟨(recordParams f W clock j name bucket (lookupKey c "s3Prefix")).1,
            .failed name e, rfl, ?_, Or.inr ⟨e, ?_, rfl⟩⟩
          · simpa [Outcome.name] using hn
          · simpa using happ
        | succ m2 =>
          have hm2 : m2 < rest.length := by simpa using hm
          obtain ⟨params, out, h1, h2, h3⟩ := hspec m2 hm2
          refine ⟨params, out, by simpa using h1, by simpa using h2, ?_⟩
          have harith : i + 1 + m2 = i + (m2 + 1) := by omega
          rwa [harith] at h3

/-- C3: when exactly the `k`-th export call fails, the aggregate result has
one outcome per record, in input order, with the `k`-th outcome
`EXPORT_FAILED` (with the error) and every other outcome `EXPORT_STARTED`
with its task identifier; processing never stops at the failure. -/
theorem c3_one_failure_isolated (api : Nat → ExportParams → Except String String)
    (f : Int → String) (W : Int) (clock : Nat → Int)
    (configs : List DBRecord) (k : Nat) (hk : k < configs.length)
    (hwf : ∀ c ∈ configs, wfRecord c)
    (hfail : ∀ p, ∃ e, api k p = .error e)
    (hok : ∀ i p, i ≠ k → ∃ t, api i p = .ok t) :
    ∃ outs, (runLoop api f W clock 0 0 configs).2 = .ok outs ∧
      outs.length = configs.length ∧
      ∀ m (hm : m < configs.length), ∃ out, outs.get? m = some out ∧
        lookupKey (configs.get ⟨m, hm⟩) "logGroupName" = some out.name ∧
        (m ≠ k → ∃ t, out = .started out.name t) ∧
        (m = k → ∃ e, out = .failed out.name e) := by
  obtain ⟨outs, ho, hlen, hspec⟩ := runLoop_spec api f W clock configs 0 0 hwf
  refine ⟨outs, ho, hlen, ?_⟩
  intro m hm
  obtain ⟨params, out, h1, h2, h3⟩ := hspec m hm
  refine ⟨out, h1, h2, ?_, ?_⟩
  · intro hmk
    rcases h3 with ⟨t, _, hout⟩ | ⟨e, happ, _⟩
    · exact ⟨t, hout⟩
    · obtain ⟨t, ht⟩ := hok (0 + m) params (by simpa using hmk)
      rw [ht] at happ
      cases happ
  · intro hmk
    subst hmk
    rcases h3 with ⟨t, happ, _⟩ | ⟨e, _, hout⟩
    · obtain ⟨e, he⟩ := hfail params
      rw [Nat.zero_add] at happ
      rw [he] at happ
      cases happ
    · exact ⟨e, hout⟩

/-- C3 (witness): three records where exactly the second export call fails:
the result has three outcomes, the second `EXPORT_FAILED`, the first and
third `EXPORT_STARTED`, in input order. -/
theorem c3_one_failure_isolated_witness :
    ∃ outs,
      (runLoop failSecondApi dateFmt 1440 zeroClock 0 0 [cfgA, cfgB, cfgA]).2 =
        .ok outs ∧
      outs.length = 3 ∧
      (∃ out, outs.get? 0 = some out ∧ ∃ t, out = .started out.name t) ∧
      (∃ out, outs.get? 1 = some out ∧ ∃ e, out = .failed out.name e) ∧
      (∃ out, outs.get? 2 = some out ∧ ∃ t, out = .started out.name t) := by
  obtain ⟨outs, ho, hlen, hspec⟩ :=
    c3_one_failure_isolated failSecondApi dateFmt 1440 zeroClock [cfgA, cfgB, cfgA] 1
      (by decide) (by decide)
      (fun p => ⟨"LimitExceededException", rfl⟩)
      (fun i p hi => ⟨"task-1", by simp [failSecondApi, hi]⟩)
  refine ⟨outs, ho, hlen.trans (by decide), ?_, ?_, ?_⟩
  · obtain ⟨out, h1, _, h3, _⟩ := hspec 0 (by decide)
    exact ⟨out, h1, h3 (by decide)⟩
  · obtain ⟨out, h1, _, _, h4⟩ := hspec 1 (by decide)
    exact ⟨out, h1, h4 rfl⟩
  · obtain ⟨out, h1, _, h3, _⟩ := hspec 2 (by decide)
    exact ⟨out, h1, h3 (by decide)⟩

theorem splitCommaAux_ne_nil : ∀ (cs acc : List Char), splitCommaAux cs acc ≠ [] := by
  intro cs
  induction cs with
  | nil => intro acc; simp [splitCommaAux]
  | cons c cs ih =>
    intro acc
    rw [splitCommaAux]
    by_cases hc : c = ','
    · rw [if_pos hc]; simp
    · rw [if_neg hc]; exact ih (c :: acc)

theorem mapM_option_cons_ne_nil {α β : Type} (f : α → Option β) (a : α) (l : List α)
    (ks : List β) (h : (a :: l).mapM f = some ks) : ks ≠ [] := by
  rw [List.mapM_cons] at h
  cases hfa : f a with
  | none => rw [hfa] at h; simp at h
  | some b =>
    rw [hfa] at h
    cases hml : l.mapM f with
    | none => rw [hml] at h; simp at h
    | some bs =>
      rw [hml] at h
      simp at h
      intro hk
      rw [hk] at h
      simp at h

theorem parseIndices_ne_nil (s : String) (ks : List Int)
    (h : parseIndices s = some ks) : ks ≠ [] := by
  unfold parseIndices at h
  by_cases hc : s.data.contains ','
  · rw [if_pos hc] at h
    rcases hsp : splitComma s with _ | ⟨p, ps⟩
    · exfalso
      apply splitCommaAux_ne_nil s.data []
      unfold splitComma at hsp
      exact List.map_eq_nil_iff.mp hsp
    · rw [hsp] at h
      exact mapM_option_cons_ne_nil pyInt? p ps ks h
  · rw [if_neg hc] at h
    cases hpi : pyInt? s with
    | none => rw [hpi] at h; cases h
    | some n => rw [hpi] at h; cases h; simp

theorem selectByIndices_ok (lgs : List LogGroup) :
    ∀ ks : List Int, (∀ k ∈ ks, 1 ≤ k ∧ k ≤ (lgs.length : Int)) →
      selectByIndices lgs ks =
        .ok (ks.map (fun k => lgs.getD (k - 1).toNat ⟨""⟩)) := by
  intro ks
  induction ks with
  | nil => intro _; rfl
  | cons k rest ih =>
    intro h
    have hk := h k (List.mem_cons_self k rest)
    rw [selectByIndices, if_pos hk, ih (fun x hx => h x (List.mem_cons_of_mem _ hx))]
    rfl

theorem selectByIndices_error (lgs : List LogGroup) (bad : Int) (ks2 : List Int)
    (hbad : ¬ (1 ≤ bad ∧ bad ≤ (lgs.length : Int))) :
    ∀ ks1 : List Int, (∀ k ∈ ks1, 1 ≤ k ∧ k ≤ (lgs.length : Int)) →
      selectByIndices lgs (ks1 ++ bad :: ks2) = .error bad := by
  intro ks1
  induction ks1 with
  | nil => intro _; rw [List.nil_append, selectByIndices, if_neg hbad]
  | cons k rest ih =>
    intro h
    have hk := h k (List.mem_cons_self k rest)
    rw [List.cons_append, selectByIndices, if_pos hk,
      ih (fun x hx => h x (List.mem_cons_of_mem _ hx))]

theorem isRegexForm_ne_all (s : String) (h : isRegexForm s = true) :
    pyLower s ≠ "all" := by
  intro hall
  unfold isRegexForm at h
  rw [Bool.and_eq_true] at h
  have h1 := of_decide_eq_true h.1
  have hd : s.data.map Char.toLower = "all".data := congrArg String.data hall
  cases hsd : s.data with
  | nil => rw [hsd] at h1; cases h1
  | cons c cs =>
    rw [hsd] at h1
    have hc : c = '/' := by
      have : (c :: cs).head? = some c := rfl
      rw [this] at h1
      injection h1
    rw [hsd, List.map_cons, hc] at hd
    injection hd with hd1 _
    exact absurd hd1 (by decide)

theorem gls_nil (engine : RegexEngine) (logGroups : List LogGroup) :
    get_log_group_selection engine logGroups [] = ([], none) := rfl

theorem gls_ret (engine : RegexEngine) (logGroups : List LogGroup)
    (s : String) (rest : List String) (msgs : List SelMsg)
    (selected : List LogGroup)
    (h : selParse engine logGroups s = .ret msgs selected) :
    get_log_group_selection engine logGroups (s :: rest) = (msgs, some selected) := by
  rw [get_log_group_selection, h]

theorem gls_retry (engine : RegexEngine) (logGroups : List LogGroup)
    (s : String) (rest : List String) (msgs : List SelMsg)
    (h : selParse engine logGroups s = .retry msgs) :
    get_log_group_selection engine logGroups (s :: rest) =
      (msgs ++ (get_log_group_selection engine logGroups rest).1,
       (get_log_group_selection engine logGroups rest).2) := by
  rw [get_log_group_selection, h]

theorem gls_confirm_end (engine : RegexEngine) (logGroups : List LogGroup)
    (s : String) (msgs : List SelMsg) (cand : List LogGroup)
    (h : selParse engine logGroups s = .confirmThen msgs cand) :
    get_log_group_selection engine logGroups [s] = (msgs, none) := by
  rw [get_log_group_selection, h]

theorem gls_confirm_y (engine : RegexEngine) (logGroups : List LogGroup)
    (s confirm : String) (rest : List String) (msgs : List SelMsg)
    (cand : List LogGroup)
    (h : selParse engine logGroups s = .confirmThen msgs cand)
    (hy : pyLower confirm = "y") :
    get_log_group_selection engine logGroups (s :: confirm :: rest) =
      (msgs, some cand) := by
  rw [get_log_group_selection, h]
  simp [hy]

theorem gls_confirm_other (engine : RegexEngine) (logGroups : List LogGroup)
    (s confirm : String) (rest : List String) (msgs : List SelMsg)
    (cand : List LogGroup)
    (h : selParse engine logGroups s = .confirmThen msgs cand)
    (hn : pyLower confirm ≠ "y") :
    get_log_group_selection engine logGroups (s :: confirm :: rest) =
      (msgs ++ (get_log_group_selection engine logGroups rest).1,
       (get_log_group_selection engine logGroups rest).2) := by
  rw [get_log_group_selection, h]
  simp [hn]

theorem selParse_all (engine : RegexEngine) (logGroups : List LogGroup)
    (s : String) (h : pyLower s = "all") :
    selParse engine logGroups s = .ret [] logGroups := by
  rw [selParse, if_pos h]

theorem selParse_regex_error (engine : RegexEngine) (logGroups : List LogGroup)
    (s e : String) (hform : isRegexForm s = true)
    (he : engine.compile (regexInterior s) = .error e) :
    selParse engine logGroups s = .retry [SelMsg.invalidRegex e] := by
  rw [selParse, if_neg (isRegexForm_ne_all s hform)]
  simp only [hform, if_true, he]

theorem selParse_regex_empty (engine : RegexEngine) (logGroups : List LogGroup)
    (s : String) (m : String → Bool) (hform : isRegexForm s = true)
    (hm : engine.compile (regexInterior s) = .ok m)
    (hempty : logGroups.filter (fun lg => m lg.logGroupName) = []) :
    selParse engine logGroups s = .retry [SelMsg.noMatch (regexInterior s)] := by
  rw [selParse, if_neg (isRegexForm_ne_all s hform)]
  simp only [hform, if_true, hm, hempty, if_pos rfl]

theorem selParse_regex_matched (engine : RegexEngine) (logGroups : List LogGroup)
    (s : String) (m : String → Bool) (hform : isRegexForm s = true)
    (hm : engine.compile (regexInterior s) = .ok m)
    (hne : logGroups.filter (fun lg => m lg.logGroupName) ≠ []) :
    selParse engine logGroups s =
      .confirmThen
        (SelMsg.matchedHeader (logGroups.filter (fun lg => m lg.logGroupName)).length ::
          (logGroups.filter (fun lg => m lg.logGroupName)).map
            (fun lg => SelMsg.groupName lg.logGroupName))
        (logGroups.filter (fun lg => m lg.logGroupName)) := by
  rw [selParse, if_neg (isRegexForm_ne_all s hform)]
  simp only [hform, if_true, hm, if_neg hne]

theorem selParse_indices_ok (engine : RegexEngine) (logGroups : List LogGroup)
    (s : String) (ks : List Int)
    (hall : pyLower s ≠ "all") (hre : isRegexForm s = false)
    (hpi : parseIndices s = some ks)
    (hks : ∀ k ∈ ks, 1 ≤ k ∧ k ≤ (logGroups.length : Int)) (hne : ks ≠ []) :
    selParse engine logGroups s =
      .confirmThen
        (SelMsg.selectedHeader ::
          (ks.map (fun k => logGroups.getD (k - 1).toNat ⟨""⟩)).map
            (fun lg => SelMsg.groupName lg.logGroupName))
        (ks.map (fun k => logGroups.getD (k - 1).toNat ⟨""⟩)) := by
  have hmapne : ks.map (fun k => logGroups.getD (k - 1).toNat ⟨""⟩) ≠ [] :=
    fun h => hne (List.map_eq_nil_iff.mp h)
  rw [selParse, if_neg hall]
  simp only [hre, Bool.false_eq_true, if_false, hpi, selectByIndices_ok logGroups ks hks,
    if_neg hmapne]

theorem selParse_indices_bad (engine : RegexEngine) (logGroups : List LogGroup)
    (s : String) (ks1 ks2 : List Int) (bad : Int)
    (hall : pyLower s ≠ "all") (hre : isRegexForm s = false)
    (hpi : parseIndices s = some (ks1 ++ bad :: ks2))
    (hks1 : ∀ k ∈ ks1, 1 ≤ k ∧ k ≤ (logGroups.length : Int))
    (hbad : ¬ (1 ≤ bad ∧ bad ≤ (logGroups.length : Int))) :
    selParse engine logGroups s =
      .retry [SelMsg.invalidSelection bad logGroups.length] := by
  rw [selParse, if_neg hall]
  simp only [hre, Bool.false_eq_true, if_false, hpi,
    selectByIndices_error logGroups bad ks2 hbad ks1 hks1]

theorem selParse_indices_malformed (engine : RegexEngine) (logGroups : List LogGroup)
    (s : String) (hall : pyLower s ≠ "all") (hre : isRegexForm s = false)
    (hpi : parseIndices s = none) :
    selParse engine logGroups s = .retry [SelMsg.invalidInput] := by
  rw [selParse, if_neg hall]
  simp only [hre, Bool.false_eq_true, if_false, hpi]

/-- C4: for a catalog of N ≥ 1 sources and a comma-separated integer list in
which every element lies in [1, N], a case-insensitive `y` confirmation
returns exactly the sources at those 1-based indices, in input order,
duplicates permitted; a list containing an out-of-range index is rejected as
a whole with a message naming the offending index and the range `1..N`, the
prompt repeats, and no partial selection is returned; a non-`y` confirmation
discards the batch and forces fresh input. -/
theorem c4_index_selection (engine : RegexEngine) (logGroups : List LogGroup)
    (hN : 1 ≤ logGroups.length) :
    (∀ (s confirm : String) (rest : List String) (ks : List Int),
      pyLower s ≠ "all" → isRegexForm s = false → parseIndices s = some ks →
      (∀ k ∈ ks, 1 ≤ k ∧ k ≤ (logGroups.length : Int)) →
      pyLower confirm = "y" →
      (get_log_group_selection engine logGroups (s :: confirm :: rest)).2 =
        some (ks.map (fun k => logGroups.getD (k - 1).toNat ⟨""⟩)))
    ∧ (∀ (s : String) (rest : List String) (ks1 ks2 : List Int) (bad : Int),
      pyLower s ≠ "all" → isRegexForm s = false →
      parseIndices s = some (ks1 ++ bad :: ks2) →
      (∀ k ∈ ks1, 1 ≤ k ∧ k ≤ (logGroups.length : Int)) →
      ¬ (1 ≤ bad ∧ bad ≤ (logGroups.length : Int)) →
      get_log_group_selection engine logGroups (s :: rest) =
        (SelMsg.invalidSelection bad logGroups.length ::
          (get_log_group_selection engine logGroups rest).1,
         (get_log_group_selection engine logGroups rest).2))
    ∧ (∀ (s confirm : String) (rest : List String) (ks : List Int),
      pyLower s ≠ "all" → isRegexForm s = false → parseIndices s = some ks →
      (∀ k ∈ ks, 1 ≤ k ∧ k ≤ (logGroups.length : Int)) →
      pyLower confirm ≠ "y" →
      (get_log_group_selection engine logGroups (s :: confirm :: rest)).2 =
        (get_log_group_selection engine logGroups rest).2) := by
  refine ⟨?_, ?_, ?_⟩
  · intro s confirm rest ks hall hre hpi hks hy
    have hne := parseIndices_ne_nil s ks hpi
    rw [gls_confirm_y engine logGroups s confirm rest _ _
      (selParse_indices_ok engine logGroups s ks hall hre hpi hks hne) hy]
  · intro s rest ks1 ks2 bad hall hre hpi hks1 hbad
    rw [gls_retry engine logGroups s rest _
      (selParse_indices_bad engine logGroups s ks1 ks2 bad hall hre hpi hks1 hbad)]
    simp
  · intro s confirm rest ks hall hre hpi hks hn
    have hne := parseIndices_ne_nil s ks hpi
    rw [gls_confirm_other engine logGroups s confirm rest _ _
      (selParse_indices_ok engine logGroups s ks hall hre hpi hks hne) hn]

/-- C4 (witness): on the two-source catalog, `"2,1,2"` confirmed with `"Y"`
returns sources 2, 1, 2 in that order; `"3,1"` is rejected whole with the
message naming 3 and the range 1..2 and the loop continues; `"2,1,2"`
followed by `"n"` yields no selection. -/
theorem c4_index_selection_witness :
    (get_log_group_selection noEngine [⟨"app-logs"⟩, ⟨"sys-logs"⟩]
        ["2,1,2", "Y"]).2 =
      some [⟨"sys-logs"⟩, ⟨"app-logs"⟩, ⟨"sys-logs"⟩] ∧
    get_log_group_selection noEngine [⟨"app-logs"⟩, ⟨"sys-logs"⟩] ["3,1"] =
      (SelMsg.invalidSelection 3 2 ::
        (get_log_group_selection noEngine [⟨"app-logs"⟩, ⟨"sys-logs"⟩] []).1,
       (get_log_group_selection noEngine [⟨"app-logs"⟩, ⟨"sys-logs"⟩] []).2) ∧
    (get_log_group_selection noEngine [⟨"app-logs"⟩, ⟨"sys-logs"⟩]
        ["2,1,2", "n"]).2 =
      (get_log_group_selection noEngine [⟨"app-logs"⟩, ⟨"sys-logs"⟩] []).2 := by
  have h := c4_index_selection noEngine [⟨"app-logs"⟩, ⟨"sys-logs"⟩] (by decide)
  refine ⟨?_, ?_, ?_⟩
  · have h1 := h.1 "2,1,2" "Y" [] [2, 1, 2] (by decide) (by decide) (by decide)
      (by decide) (by decide)
    exact h1.trans (by decide)
  · exact h.2.1 "3,1" [] [] [1] 3 (by decide) (by decide) (by decide)
      (by decide) (by decide)
  · exact h.2.2 "2,1,2" "n" [] [2, 1, 2] (by decide) (by decide) (by decide)
      (by decide) (by decide)

/-- C5: an input delimited by `/…/` has its interior compiled as a regular
expression and matched against source names with the engine's `search`
(substring) predicate: a failed compilation re-prompts with the syntax error
surfaced; an empty match set re-prompts with a message naming the pattern; a
non-empty match set is displayed (count and names) and returned only on a
case-insensitive `y` confirmation, any other answer discarding the
candidates and re-prompting. -/
theorem c5_regex_selection (engine : RegexEngine) (logGroups : List LogGroup)
    (s : String) (hform : isRegexForm s = true) :
    (∀ (e : String) (rest : List String),
      engine.compile (regexInterior s) = .error e →
      get_log_group_selection engine logGroups (s :: rest) =
        (SelMsg.invalidRegex e ::
          (get_log_group_selection engine logGroups rest).1,
         (get_log_group_selection engine logGroups rest).2))
    ∧ (∀ (m : String → Bool) (rest : List String),
      engine.compile (regexInterior s) = .ok m →
      logGroups.filter (fun lg => m lg.logGroupName) = [] →
      get_log_group_selection engine logGroups (s :: rest) =
        (SelMsg.noMatch (regexInterior s) ::
          (get_log_group_selection engine logGroups rest).1,
         (get_log_group_selection engine logGroups rest).2))
    ∧ (∀ (m : String → Bool) (confirm : String) (rest : List String),
      engine.compile (regexInterior s) = .ok m →
      logGroups.filter (fun lg => m lg.logGroupName) ≠ [] →
      pyLower confirm = "y" →
      get_log_group_selection engine logGroups (s :: confirm :: rest) =
        (SelMsg.matchedHeader
            (logGroups.filter (fun lg => m lg.logGroupName)).length ::
          (logGroups.filter (fun lg => m lg.logGroupName)).map
            (fun lg => SelMsg.groupName lg.logGroupName),
         some (logGroups.filter (fun lg => m lg.logGroupName))))
    ∧ (∀ (m : String → Bool) (confirm : String) (rest : List String),
      engine.compile (regexInterior s) = .ok m →
      logGroups.filter (fun lg => m lg.logGroupName) ≠ [] →
      pyLower confirm ≠ "y" →
      (get_log_group_selection engine logGroups (s :: confirm :: rest)).2 =
        (get_log_group_selection engine logGroups rest).2) := by
  refine ⟨?_, ?_, ?_, ?_⟩
  · intro e rest he
    rw [gls_retry engine logGroups s rest _
      (selParse_regex_error engine logGroups s e hform he)]
    simp
  · intro m rest hm hempty
    rw [gls_retry engine logGroups s rest _
      (selParse_regex_empty engine logGroups s m hform hm hempty)]
    simp
  · intro m confirm rest hm hne hy
    exact gls_confirm_y engine logGroups s confirm rest _ _
      (selParse_regex_matched engine logGroups s m hform hm hne) hy
  · intro m confirm rest hm hne hn
    rw [gls_confirm_other engine logGroups s confirm rest _ _
      (selParse_regex_matched engine logGroups s m hform hm hne) hn]

/-- C5 (witness): with the literal-substring engine on the two-source
catalog: `"/(/"` surfaces the syntax error and re-prompts; `"/zzz/"`
re-prompts with a message naming the pattern `zzz`; `"/app/"` matches
`app-logs`, displays it, and returns it after `"Y"`; the same input followed
by `"n"` yields no selection. -/
theorem c5_regex_selection_witness :
    get_log_group_selection literalEngine [⟨"app-logs"⟩, ⟨"sys-logs"⟩] ["/(/"] =
      (SelMsg.invalidRegex "missing ), unterminated subpattern" ::
        (get_log_group_selection literalEngine [⟨"app-logs"⟩, ⟨"sys-logs"⟩] []).1,
       (get_log_group_selection literalEngine [⟨"app-logs"⟩, ⟨"sys-logs"⟩] []).2) ∧
    get_log_group_selection literalEngine [⟨"app-logs"⟩, ⟨"sys-logs"⟩] ["/zzz/"] =
      (SelMsg.noMatch "zzz" ::
        (get_log_group_selection literalEngine [⟨"app-logs"⟩, ⟨"sys-logs"⟩] []).1,
       (get_log_group_selection literalEngine [⟨"app-logs"⟩, ⟨"sys-logs"⟩] []).2) ∧
    get_log_group_selection literalEngine [⟨"app-logs"⟩, ⟨"sys-logs"⟩]
        ["/app/", "Y"] =
      ([SelMsg.matchedHeader 1, SelMsg.groupName "app-logs"],
       some [⟨"app-logs"⟩]) ∧
    (get_log_group_selection literalEngine [⟨"app-logs"⟩, ⟨"sys-logs"⟩]
        ["/app/", "n"]).2 =
      (get_log_group_selection literalEngine [⟨"app-logs"⟩, ⟨"sys-logs"⟩] []).2 := by
  refine ⟨?_, ?_, ?_, ?_⟩
  · exact (c5_regex_selection literalEngine [⟨"app-logs"⟩, ⟨"sys-logs"⟩] "/(/"
      (by decide)).1 "missing ), unterminated subpattern" [] rfl
  · exact (c5_regex_selection literalEngine [⟨"app-logs"⟩, ⟨"sys-logs"⟩] "/zzz/"
      (by decide)).2.1 (fun name => decide (("zzz" : String).data <:+: name.data)) []
      rfl (by decide)
  · have h := (c5_regex_selection literalEngine [⟨"app-logs"⟩, ⟨"sys-logs"⟩] "/app/"
      (by decide)).2.2.1 (fun name => decide (("app" : String).data <:+: name.data))
      "Y" [] rfl (by decide) (by decide)
    exact h.trans (by decide)
  · exact (c5_regex_selection literalEngine [⟨"app-logs"⟩, ⟨"sys-logs"⟩] "/app/"
      (by decide)).2.2.2 (fun name => decide (("app" : String).data <:+: name.data))
      "n" [] rfl (by decide) (by decide)
